import Mathlib

/-
Verification of the slack-price-watch monitor jobs.

Shallow embedding of two monitor variants:
  namespace M1 : the buildDiff / pruneState variant (saveState without a
                 try/catch), the file also defining MIN_PRICE_YEN admission.
  namespace MC : the shouldNotifyByDiff / cleanupState variant found at
                 cloud/src/jobs/monitor.js (saveState guarded by try/catch).

JavaScript numbers that carry yen amounts, ranks, counts and millisecond or
second timestamps are modelled as Int; JSON-dynamic fields are modelled by
the JVal type.  Digit grouping done by toLocaleString is rendered as plain
decimal digits; this affects only human-readable label strings.
-/

set_option maxRecDepth 4000

/-- A JSON value as produced by JSON.parse.  Numbers are modelled as Int. -/
inductive JVal where
  | jnull : JVal
  | jbool (b : Bool) : JVal
  | jnum (n : Int) : JVal
  | jstr (s : String) : JVal
  | jarr (xs : List JVal) : JVal
  | jobj (fields : List (String × JVal)) : JVal

/-- JavaScript truthiness of a JSON value. -/
def JVal.truthy : JVal → Bool
  | .jnull => false
  | .jbool b => b
  | .jnum n => n != 0
  | .jstr s => s != ""
  | .jarr _ => true
  | .jobj _ => true

/-- Whether typeof yields "object" for the value (true for null and arrays). -/
def JVal.typeofObject : JVal → Bool
  | .jnull => true
  | .jarr _ => true
  | .jobj _ => true
  | _ => false

/-- Property read on an object; none models undefined. -/
def JVal.getField : JVal → String → Option JVal
  | .jobj fields, k => fields.lookup k
  | _, _ => none

/-- Threshold / tuning configuration; field defaults are the numEnv defaults
of both monitor variants. -/
structure Cfg where
  priceDelta : Int := 200
  rankDelta : Int := 5000
  sellersDelta : Int := 1
  sold30Delta : Int := 5
  cooldownHours : Int := 6
  minPriceYen : Int := 2000
  stateTtlDays : Int := 30

/-- The configuration with every option left at its default. -/
def defaultCfg : Cfg := {}

/-- JS object property assignment on an association list: an existing key is
updated in place, a new key is appended. -/
def setKey {α : Type} (l : List (String × α)) (k : String) (v : α) : List (String × α) :=
  match l with
  | [] => [(k, v)]
  | (k0, v0) :: rest => if k0 == k then (k0, v) :: rest else (k0, v0) :: setKey rest k v

/-- JS delete of a property. -/
def eraseKey {α : Type} (l : List (String × α)) (k : String) : List (String × α) :=
  match l with
  | [] => []
  | (k0, v0) :: rest => if k0 == k then rest else (k0, v0) :: eraseKey rest k

/-- Substring test, as String.prototype.includes. -/
def strContains (hay needle : String) : Bool :=
  hay.toList.tails.any (fun t => needle.toList.isPrefixOf t)

namespace M1

/-- absNum: Math.abs for a number, null otherwise; inside buildDiff it is
only ever applied to a number. -/
def absNum (n : Int) : Option Int := some |n|

/-- yen: renders an optional amount, "-" when null, digits plus a yen sign
otherwise. -/
def yen : Option Int → String
  | none => "-"
  | some v => toString v ++ "円"

/-- The leading "+" that the labels put on a positive delta. -/
def plusSign (d : Int) : String := if 0 < d then "+" else ""

end M1

/-- The current observation built for one product inside processProfile,
shared in shape by both monitor variants. -/
structure Curr where
  asin : String
  title : String
  price : Option Int
  sellers : Option Int
  rank : Option Int
  sold30 : Option Int
  amazonUrl : String
  keepaUrl : String
  imageUrl : Option String

namespace M1

/-- One stored per-ASIN snapshot of the M1 state file.  The metric fields
are null-or-number; lastSeenAt is kept JSON-dynamic (none models an absent
field) because pruneState type-checks it at runtime. -/
structure Entry where
  asin : String
  title : String
  price : Option Int
  rank : Option Int
  sellers : Option Int
  sold30 : Option Int
  firstSeenAt : Int
  lastSeenAt : Option JVal
  lastNotifiedAt : Int

/-- Result of buildDiff. -/
structure Diff where
  changed : Bool
  label : String

/-- The price block of buildDiff: magnitude test when both present, the two
presence-change branches otherwise.  Returns the fired flag together with
the label part pushed. -/
def priceBlock (cfg : Cfg) (prevPrice currPrice : Option Int) : Bool × Option String :=
  match currPrice, prevPrice with
  | some c, some p =>
    let d := c - p
    match absNum d with
    | some a =>
      if cfg.priceDelta ≤ a then (true, some ("価格 " ++ plusSign d ++ toString d ++ "円"))
      else (false, none)
    | none => (false, none)
  | some c, none => (true, some ("価格 - → " ++ yen (some c)))
  | none, some p => (true, some ("価格 " ++ yen (some p) ++ " → -"))
  | none, none => (false, none)

/-- The rank / sellers / sold30 blocks of buildDiff: a pure magnitude test,
firing only when both values are present. -/
def deltaBlock (thr : Int) (head tail : String) (prevV currV : Option Int) : Bool × Option String :=
  match currV, prevV with
  | some c, some p =>
    let d := c - p
    match absNum d with
    | some a =>
      if thr ≤ a then (true, some (head ++ plusSign d ++ toString d ++ tail))
      else (false, none)
    | none => (false, none)
  | _, _ => (false, none)

/-- buildDiff(prev, curr): NEW when prev is absent; otherwise the four
independent metric blocks accumulate a changed flag and label parts. -/
def buildDiff (cfg : Cfg) (prev : Option Entry) (curr : Curr) : Diff :=
  match prev with
  | none => ⟨true, "NEW"⟩
  | some pv =>
    let pb := priceBlock cfg pv.price curr.price
    let rb := deltaBlock cfg.rankDelta "ランク " "" pv.rank curr.rank
    let sb := deltaBlock cfg.sellersDelta "出品者 " "" pv.sellers curr.sellers
    let db := deltaBlock cfg.sold30Delta "30日販売数 " "" pv.sold30 curr.sold30
    let changed := pb.1 || rb.1 || sb.1 || db.1
    if changed then ⟨true, String.intercalate " / " ([pb.2, rb.2, sb.2, db.2].filterMap id)⟩
    else ⟨false, "NO_DIFF"⟩

/-- inCooldown(prev): false when prev is absent or lastNotifiedAt is falsy
(0); otherwise true iff less than cooldownHours hours of milliseconds have
elapsed since lastNotifiedAt. -/
def inCooldown (cfg : Cfg) (now : Int) (prev : Option Entry) : Bool :=
  match prev with
  | none => false
  | some p =>
    if p.lastNotifiedAt == 0 then false
    else decide (now - p.lastNotifiedAt < cfg.cooldownHours * 60 * 60 * 1000)

end M1

/-- Digital-content keyword list, shared by the monitor variants. -/
def DIGITAL_KEYWORDS : List String :=
  ["オンラインコード", "オンライン コード", "ダウンロード", "download", "digital code", "ダウンロード版"]

/-- isDigitalTitle: case-folded keyword containment; an undefined title
defaults to the empty string. -/
def isDigitalTitle (title : Option String) : Bool :=
  let lower := (title.getD "").toLower
  DIGITAL_KEYWORDS.any (fun kw => strContains lower kw.toLower)

/-- normalizeTitle: an empty or missing title becomes "(no title)"; runs of
whitespace collapse to one space and the ends are trimmed. -/
def normalizeTitle (rawTitle : Option String) : String :=
  let s := match rawTitle with
    | none => "(no title)"
    | some t => if t = "" then "(no title)" else t
  String.intercalate " " ((s.split Char.isWhitespace).filter (fun w => w ≠ ""))

/-- One raw upstream product record, restricted to the fields the monitor
reads.  A none inside statsCurrent models a missing or non-number array
slot; a missing stats object is the empty list. -/
structure Product where
  asin : Option String
  title : Option String
  statsCurrent : List (Option Int)
  totalOfferCount : Option Int
  salesRankDrops30 : Option Int
  salesRankDrops90 : Option Int
  salesRankDrops180 : Option Int
  imagesCSV : Option String

/-- One slot of getStatsBasics: stats.current[i] when it is a positive
number, null otherwise. -/
def statAt (current : List (Option Int)) (i : Nat) : Option Int :=
  match current.getD i none with
  | some n => if 0 < n then some n else none
  | none => none

/-- getTotalOfferCount: the raw field when it is a non-negative number. -/
def getTotalOfferCount (raw : Option Int) : Option Int :=
  match raw with
  | some n => if 0 ≤ n then some n else none
  | none => none

/-- getMainImageUrl: image URL from the first comma-separated image id. -/
def getMainImageUrl (imagesCSV : Option String) : Option String :=
  match imagesCSV with
  | none => none
  | some csv =>
    if csv = "" then none
    else
      let firstId := (csv.splitOn ",").headD ""
      if firstId = "" then none
      else some ("https://m.media-amazon.com/images/I/" ++ firstId ++ ".jpg")

/-- keepaProductPageUrl with the default JP domain (KEEPA_DOMAIN = 5). -/
def keepaProductPageUrl (asin : String) : String :=
  "https://keepa.com/#!product/5-" ++ asin

namespace M1

/-- The in-memory state of the M1 variant. -/
structure State where
  version : Int
  updatedAt : Int
  asins : List (String × Entry)

/-- amazonPrice of getStatsBasics. -/
def amazonPriceOf (p : Product) : Option Int := statAt p.statsCurrent 0

/-- newPrice of getStatsBasics. -/
def newPriceOf (p : Product) : Option Int := statAt p.statsCurrent 1

/-- salesRank of getStatsBasics. -/
def salesRankOf (p : Product) : Option Int := statAt p.statsCurrent 3

/-- The amazon-stock exclusion guard: amazonPrice truthy and positive. -/
def amazonBlocked (p : Product) : Bool :=
  match amazonPriceOf p with
  | some a => (a != 0) && decide (0 < a)
  | none => false

/-- sellers as derived in the scan loop. -/
def derivedSellers (p : Product) : Option Int := getTotalOfferCount p.totalOfferCount

/-- monthlySold: salesRankDrops30 ?? salesRankDrops90 ?? salesRankDrops180 ?? null. -/
def derivedSold (p : Product) : Option Int :=
  p.salesRankDrops30 <|> (p.salesRankDrops90 <|> p.salesRankDrops180)

/-- price: newPrice ?? amazonPrice ?? null. -/
def derivedPrice (p : Product) : Option Int :=
  newPriceOf p <|> amazonPriceOf p

/-- The curr observation object built for an admitted product. -/
def currOf (asin : String) (p : Product) : Curr :=
  { asin := asin
    title := normalizeTitle p.title
    price := derivedPrice p
    sellers := derivedSellers p
    rank := salesRankOf p
    sold30 := derivedSold p
    amazonUrl := "https://www.amazon.co.jp/dp/" ++ asin
    keepaUrl := keepaProductPageUrl asin
    imageUrl := getMainImageUrl p.imagesCSV }

/-- A picked notification item: the curr observation plus the diff label. -/
structure Picked where
  curr : Curr
  diffLabel : String

/-- The snapshot written back into the state for an admitted product: the
current metric values, a preserved (or fresh) firstSeenAt, a fresh
lastSeenAt, and the previous lastNotifiedAt (0 when new). -/
def updatedEntry (asin : String) (curr : Curr) (prev : Option Entry) (now : Int) : Entry :=
  { asin := asin
    title := curr.title
    price := curr.price
    rank := curr.rank
    sellers := curr.sellers
    sold30 := curr.sold30
    firstSeenAt := match prev with | some q => q.firstSeenAt | none => now
    lastSeenAt := some (.jnum now)
    lastNotifiedAt := match prev with | some q => q.lastNotifiedAt | none => 0 }

/-- The body of the per-product loop of processProfile: admission filters,
diff, unconditional state update for admitted items, cooldown and no-diff
suppression.  Returns the updated state and the item picked for
notification, if any. -/
def processItem (cfg : Cfg) (excludeDigital : Bool) (now : Int) (st : State) (p : Product) :
    State × Option Picked :=
  match p.asin with
  | none => (st, none)
  | some asin =>
    if asin = "" then (st, none)
    else if excludeDigital && isDigitalTitle p.title then (st, none)
    else if amazonBlocked p then (st, none)
    else
      match derivedSellers p with
      | none => (st, none)
      | some sellers =>
        if sellers < 3 then (st, none)
        else
          match derivedPrice p with
          | none => (st, none)
          | some price =>
            if price < cfg.minPriceYen then (st, none)
            else
              let prev := st.asins.lookup asin
              let curr := currOf asin p
              let diff := buildDiff cfg prev curr
              let entry := updatedEntry asin curr prev now
              let st' : State := { st with asins := setKey st.asins asin entry }
              if !diff.changed then (st', none)
              else if inCooldown cfg now prev then (st', none)
              else (st', some ⟨curr, diff.label⟩)

/-- The per-product loop over a fetched batch, with the early break once the
picked list reaches the profile limit or the per-profile notify cap. -/
def processItems (cfg : Cfg) (excludeDigital : Bool) (profileLimit maxNotify : Nat) (now : Int)
    (st : State) (picked : List Picked) : List Product → State × List Picked
  | [] => (st, picked)
  | p :: rest =>
    let (st', r) := processItem cfg excludeDigital now st p
    match r with
    | none => processItems cfg excludeDigital profileLimit maxNotify now st' picked rest
    | some pk =>
      let picked' := picked ++ [pk]
      if profileLimit ≤ picked'.length ∨ maxNotify ≤ picked'.length then (st', picked')
      else processItems cfg excludeDigital profileLimit maxNotify now st' picked' rest

/-- pruneState: deletes every entry whose lastSeenAt (with nullish values
coerced to 0) is a positive number strictly below the TTL cutoff; the
return value counts the deleted entries. -/
def entryExpired (cfg : Cfg) (now : Int) (e : Entry) : Bool :=
  let cutoff := now - cfg.stateTtlDays * 24 * 60 * 60 * 1000
  let l : JVal := match e.lastSeenAt with
    | none => .jnum 0
    | some .jnull => .jnum 0
    | some x => x
  match l with
  | .jnum n => decide (0 < n) && decide (n < cutoff)
  | _ => false

/-- pruneState proper: filter plus removed count. -/
def pruneState (cfg : Cfg) (now : Int) (state : State) : State × Nat :=
  let kept := state.asins.filter (fun kv => !entryExpired cfg now kv.2)
  ({ state with asins := kept }, state.asins.countP (fun kv => entryExpired cfg now kv.2))

end M1

/-- The default state-file path of both variants. -/
def STATE_FILE : String := "cloud/data/state.json"

/-- A durable-storage operation; documents are written whole in one call, so
a document parameter stands for the serialized JSON text. -/
inductive FsOp (σ : Type) where
  | write (path : String) (doc : σ)
  | rename (src dst : String)

/-- The filesystem as a mapping from paths to whole documents. -/
def applyOp {σ : Type} (fs : List (String × σ)) : FsOp σ → List (String × σ)
  | .write p d => setKey fs p d
  | .rename s d =>
    match fs.lookup s with
    | none => fs
    | some doc => setKey (eraseKey fs s) d doc

/-- Apply a sequence of storage operations in order. -/
def applyOps {σ : Type} (fs : List (String × σ)) (ops : List (FsOp σ)) : List (String × σ) :=
  ops.foldl applyOp fs

/-- writeJsonAtomic: write the document to path.tmp, then rename the temp
path over the target. -/
def writeJsonAtomicOps {σ : Type} (path : String) (doc : σ) : List (FsOp σ) :=
  [.write (path ++ ".tmp") doc, .rename (path ++ ".tmp") path]

/-- Count the renames whose destination is the given path. -/
def renamesTo {σ : Type} (target : String) (ops : List (FsOp σ)) : Nat :=
  ops.countP (fun op => match op with | .rename _ d => d == target | _ => false)

/-- Observable outcome of one monitor invocation: the process exit code,
the number of notifications sent, and the storage operations performed. -/
structure RunOutcome (σ : Type) where
  exitCode : Nat
  notified : Nat
  ops : List (FsOp σ)

/-- The possible conditions of the state file as seen by load: absent,
present but unreadable, present but blank (whitespace only), present but
not parseable as JSON, or holding a parsed JSON value. -/
inductive FileRead where
  | absent
  | unreadable
  | blank
  | notJson
  | json (v : JVal)

namespace M1

/-- The fallback base store passed to readJsonSafe. -/
def baseJ : JVal := .jobj [("version", .jnum 1), ("updatedAt", .jnum 0), ("asins", .jobj [])]

/-- readJsonSafe: the parsed value when the file exists, is readable, is
not blank and parses; the fallback otherwise (exceptions are swallowed). -/
def readJsonSafe (f : FileRead) (fallback : JVal) : JVal :=
  match f with
  | .json v => v
  | _ => fallback

/-- The three properties of the loaded state object that the job reads
afterwards; extra properties of a parsed file are never read. -/
structure Loaded where
  version : JVal
  updatedAt : JVal
  asins : JVal

/-- The fresh empty store. -/
def freshLoaded : Loaded := ⟨.jnum 1, .jnum 0, .jobj []⟩

/-- loadState: fallback to the base on any unreadable or non-object input;
for an object, install an empty mapping when asins is falsy or not an
object, and default updatedAt and version only when they are not numbers. -/
def loadState (f : FileRead) : Loaded :=
  let st := readJsonSafe f baseJ
  if !st.truthy || !st.typeofObject then freshLoaded
  else
    let asins := match st.getField "asins" with
      | some a => if a.truthy && a.typeofObject then a else .jobj []
      | none => .jobj []
    let updatedAt := match st.getField "updatedAt" with
      | some (.jnum n) => JVal.jnum n
      | _ => .jnum 0
    let version := match st.getField "version" with
      | some (.jnum n) => JVal.jnum n
      | _ => .jnum 1
    ⟨version, updatedAt, asins⟩

/-- The document saveState writes: updatedAt stamped with the current time,
then pruned. -/
def savedDoc (cfg : Cfg) (now : Int) (st : State) : State :=
  (pruneState cfg now { st with updatedAt := now }).1

/-- saveState of the M1 variant: no try/catch, so a storage error while
writing propagates to the caller. -/
def saveStateRun (writeRaises : Bool) (cfg : Cfg) (now : Int) (st : State) :
    Except Unit (List (FsOp State)) :=
  if writeRaises then .error ()
  else .ok (writeJsonAtomicOps STATE_FILE (savedDoc cfg now st))

/-- main of the M1 variant, at the level of its storage operations and exit
code: load, create the state file up front when it does not exist yet, run
the profiles (the scan mutates only the in-memory state and sends the
notifications, abstracted as a function), then save once.  An uncaught
error reaches the top-level catch which sets the exit code to 1. -/
def runMain (cfg : Cfg) (writeRaises fileExisted : Bool) (loaded : State)
    (scan : State → State × Nat) (nowSave : Int) : RunOutcome State :=
  let createOps := if fileExisted then [] else writeJsonAtomicOps STATE_FILE loaded
  let (st', notified) := scan loaded
  match saveStateRun writeRaises cfg nowSave st' with
  | .ok saveOps => ⟨0, notified, createOps ++ saveOps⟩
  | .error _ => ⟨1, notified, createOps⟩

end M1

namespace MC

/-- One stored per-ASIN snapshot of the MC variant (the fields written by
pickStateFields plus the bookkeeping timestamps); lastSeenAt is kept
JSON-dynamic because cleanupState type-checks it at runtime. -/
structure Entry where
  title : String
  price : Option Int
  sellers : Option Int
  rank : Option Int
  sold30 : Option Int
  amazonUrl : String
  keepaUrl : String
  imageUrl : Option String
  lastSeenAt : Option JVal
  lastNotifiedAt : Int

/-- absDelta: null when either side is nullish, the absolute difference
otherwise.  Number() of a number is the identity and both sides of the
numeric model are always finite. -/
def absDelta (a b : Option Int) : Option Int :=
  match a, b with
  | some x, some y => some |x - y|
  | _, _ => none

/-- Result of shouldNotifyByDiff. -/
structure NotifyDecision where
  ok : Bool
  reasons : List String

/-- One reason push of shouldNotifyByDiff: a reason string exactly when the
delta exists and meets its threshold. -/
def reasonBlock (thr : Int) (tag : String) (a b : Option Int) : Option String :=
  match absDelta a b with
  | some d => if thr ≤ d then some (tag ++ toString d) else none
  | none => none

/-- shouldNotifyByDiff: new when prev is absent; otherwise the four metric
deltas are tested in source order (price, sellers, rank, sold30), each
pushing at most one reason, and the decision is whether any reason
accumulated. -/
def shouldNotifyByDiff (cfg : Cfg) (prev : Option Entry) (cur : Curr) : NotifyDecision :=
  match prev with
  | none => ⟨true, ["new"]⟩
  | some p =>
    let rs : List String :=
      [reasonBlock cfg.priceDelta "priceΔ" p.price cur.price,
       reasonBlock cfg.sellersDelta "sellersΔ" p.sellers cur.sellers,
       reasonBlock cfg.rankDelta "rankΔ" p.rank cur.rank,
       reasonBlock cfg.sold30Delta "sold30Δ" p.sold30 cur.sold30].filterMap id
    ⟨decide (0 < rs.length), rs⟩

/-- The in-memory state of the MC variant. -/
structure State where
  version : Int
  updatedAt : Int
  asins : List (String × Entry)

/-- The removal test of cleanupState: lastSeenAt is read without coercion
and an entry expires only when it is a number, positive, and strictly below
the seconds cutoff. -/
def entryExpired (cfg : Cfg) (now : Int) (e : Entry) : Bool :=
  let cutoff := now - cfg.stateTtlDays * 86400
  match e.lastSeenAt with
  | some (.jnum n) => decide (0 < n) && decide (n < cutoff)
  | _ => false

/-- cleanupState: delete the expired entries and return the removed count. -/
def cleanupState (cfg : Cfg) (now : Int) (state : State) : State × Nat :=
  let kept := state.asins.filter (fun kv => !entryExpired cfg now kv.2)
  ({ state with asins := kept }, state.asins.countP (fun kv => entryExpired cfg now kv.2))

/-- saveState of the MC variant: updatedAt is stamped, then the atomic write
runs inside a try/catch, so a storage error is logged and swallowed and no
rename reaches the state file. -/
def saveStateRun (writeRaises : Bool) (now : Int) (st : State) : State × List (FsOp State) :=
  let st' := { st with updatedAt := now }
  if writeRaises then (st', [])
  else (st', writeJsonAtomicOps STATE_FILE st')

/-- main of the MC variant at the level of its storage operations and exit
code: load, cleanup, run the profiles, save once; a save failure is caught
inside saveState so the top-level catch never fires because of it. -/
def runMain (cfg : Cfg) (writeRaises : Bool) (loaded : State) (nowClean : Int)
    (scan : State → State × Nat) (nowSave : Int) : RunOutcome State :=
  let (st0, _removed) := cleanupState cfg nowClean loaded
  let (st', notified) := scan st0
  let (_stSaved, saveOps) := saveStateRun writeRaises nowSave st'
  ⟨0, notified, saveOps⟩

end MC

/-
Concrete values used by the scenario conjuncts and witnesses; the metric
numbers are the prev/curr scenario of the specification.
-/

/-- Scenario previous snapshot for the M1 diff. -/
def scenPrev : M1.Entry :=
  { asin := "B000SCEN01", title := "item", price := some 1000, rank := some 500,
    sellers := some 5, sold30 := some 10, firstSeenAt := 1,
    lastSeenAt := some (.jnum 1), lastNotifiedAt := 0 }

/-- Scenario current observation with a chosen price. -/
def scenCurr (pr : Option Int) : Curr :=
  { asin := "B000SCEN01", title := "item", price := pr, sellers := some 5,
    rank := some 500, sold30 := some 10,
    amazonUrl := "https://www.amazon.co.jp/dp/B000SCEN01",
    keepaUrl := keepaProductPageUrl "B000SCEN01", imageUrl := none }

/-- Scenario previous snapshot for the MC diff. -/
def scenPrevMC : MC.Entry :=
  { title := "item", price := some 1000, sellers := some 5, rank := some 500,
    sold30 := some 10, amazonUrl := "https://www.amazon.co.jp/dp/B000SCEN01",
    keepaUrl := keepaProductPageUrl "B000SCEN01", imageUrl := none,
    lastSeenAt := some (.jnum 1), lastNotifiedAt := 0 }

/-- A concrete upstream product for the witnesses: sellers and new-condition
price are chosen per witness. -/
def scenProd (toc newP : Option Int) : Product :=
  { asin := some "B000SCEN01", title := some "item",
    statsCurrent := [none, newP, none, some 500], totalOfferCount := toc,
    salesRankDrops30 := some 10, salesRankDrops90 := none,
    salesRankDrops180 := none, imagesCSV := none }

/-- A previous snapshot inside the cooldown window (notified at 90 with the
clock at 100). -/
def cdPrev : M1.Entry :=
  { asin := "B000SCEN01", title := "item", price := some 3000, rank := some 500,
    sellers := some 5, sold30 := some 10, firstSeenAt := 1,
    lastSeenAt := some (.jnum 1), lastNotifiedAt := 90 }

/-- A state holding cdPrev. -/
def cdState : M1.State := { version := 1, updatedAt := 0, asins := [("B000SCEN01", cdPrev)] }

/-- The admission invariant on a stored entry: seller count present and at
least 3, price present and at least the configured floor. -/
def M1.goodEntry (cfg : Cfg) (e : M1.Entry) : Prop :=
  (∃ s, e.sellers = some s ∧ 3 ≤ s) ∧ (∃ pr, e.price = some pr ∧ cfg.minPriceYen ≤ pr)

/-- The admission invariant on a notification candidate. -/
def M1.goodCurr (cfg : Cfg) (c : Curr) : Prop :=
  (∃ s, c.sellers = some s ∧ 3 ≤ s) ∧ (∃ pr, c.price = some pr ∧ cfg.minPriceYen ≤ pr)

/-- Every entry of the store satisfies the admission invariant. -/
def M1.goodState (cfg : Cfg) (st : M1.State) : Prop :=
  ∀ kv ∈ st.asins, M1.goodEntry cfg kv.2

/-- An entry like cdPrev but with a chosen lastSeenAt, for the pruning
witnesses. -/
def prEnt (l : Option JVal) : M1.Entry := { cdPrev with lastSeenAt := l }

/-- A state with one entry one unit older than the default TTL cutoff at
time 3000000000 ms (cutoff 408000000) and one exactly at the cutoff. -/
def prState : M1.State :=
  { version := 1, updatedAt := 0,
    asins := [("old", prEnt (some (.jnum 407999999))),
              ("edge", prEnt (some (.jnum 408000000)))] }

/-- An MC entry with a chosen lastSeenAt, for the cleanup witnesses. -/
def prEntMC (l : Option JVal) : MC.Entry := { scenPrevMC with lastSeenAt := l }

/-- A state with one entry whose lastSeenAt is a string, for the C10
witness. -/
def prStateW : M1.State :=
  { version := 1, updatedAt := 0,
    asins := [("weird", prEnt (some (.jstr "not-a-number")))] }

/-
Theorems.  Helper lemmas first, then one theorem per claim (witnesses and
counterexamples alongside their claims).
-/

theorem diff_ite_changed (b : Bool) (l : String) :
    (if b then (⟨true, l⟩ : M1.Diff) else ⟨false, "NO_DIFF"⟩).changed = b := by
  cases b <;> rfl

theorem buildDiff_changed (cfg : Cfg) (pv : M1.Entry) (curr : Curr) :
    (M1.buildDiff cfg (some pv) curr).changed =
      ((M1.priceBlock cfg pv.price curr.price).1 ||
       (M1.deltaBlock cfg.rankDelta "ランク " "" pv.rank curr.rank).1 ||
       (M1.deltaBlock cfg.sellersDelta "出品者 " "" pv.sellers curr.sellers).1 ||
       (M1.deltaBlock cfg.sold30Delta "30日販売数 " "" pv.sold30 curr.sold30).1) :=
  diff_ite_changed _ _

theorem priceBlock_both (cfg : Cfg) (p c : Int) :
    (M1.priceBlock cfg (some p) (some c)).1 = decide (cfg.priceDelta ≤ |c - p|) := by
  unfold M1.priceBlock M1.absNum
  by_cases h : cfg.priceDelta ≤ |c - p| <;> simp [h]

theorem priceBlock_appear (cfg : Cfg) (c : Int) :
    (M1.priceBlock cfg none (some c)).1 = true := rfl

theorem priceBlock_disappear (cfg : Cfg) (p : Int) :
    (M1.priceBlock cfg (some p) none).1 = true := rfl

theorem priceBlock_none_none (cfg : Cfg) :
    (M1.priceBlock cfg none none).1 = false := rfl

theorem deltaBlock_both (thr : Int) (hd tl : String) (p c : Int) :
    (M1.deltaBlock thr hd tl (some p) (some c)).1 = decide (thr ≤ |c - p|) := by
  unfold M1.deltaBlock M1.absNum
  by_cases h : thr ≤ |c - p| <;> simp [h]

theorem deltaBlock_curr_none (thr : Int) (hd tl : String) (prevV : Option Int) :
    (M1.deltaBlock thr hd tl prevV none).1 = false := by
  cases prevV <;> rfl

theorem deltaBlock_prev_none (thr : Int) (hd tl : String) (c : Int) :
    (M1.deltaBlock thr hd tl none (some c)).1 = false := rfl

theorem reasonBlock_both (thr : Int) (tag : String) (p c : Int) :
    (MC.reasonBlock thr tag (some p) (some c)).isSome = decide (thr ≤ |p - c|) := by
  unfold MC.reasonBlock MC.absDelta
  by_cases h : thr ≤ |p - c| <;> simp [h]

theorem reasonBlock_a_none (thr : Int) (tag : String) (b : Option Int) :
    (MC.reasonBlock thr tag none b).isSome = false := rfl

theorem reasonBlock_b_none (thr : Int) (tag : String) (a : Option Int) :
    (MC.reasonBlock thr tag a none).isSome = false := by
  cases a <;> rfl

theorem shouldNotify_ok_eq (cfg : Cfg) (p : MC.Entry) (cur : Curr) :
    (MC.shouldNotifyByDiff cfg (some p) cur).ok =
      ((MC.reasonBlock cfg.priceDelta "priceΔ" p.price cur.price).isSome ||
       (MC.reasonBlock cfg.sellersDelta "sellersΔ" p.sellers cur.sellers).isSome ||
       (MC.reasonBlock cfg.rankDelta "rankΔ" p.rank cur.rank).isSome ||
       (MC.reasonBlock cfg.sold30Delta "sold30Δ" p.sold30 cur.sold30).isSome) := by
  unfold MC.shouldNotifyByDiff
  rcases h1 : MC.reasonBlock cfg.priceDelta "priceΔ" p.price cur.price with _ | r1 <;>
    rcases h2 : MC.reasonBlock cfg.sellersDelta "sellersΔ" p.sellers cur.sellers with _ | r2 <;>
      rcases h3 : MC.reasonBlock cfg.rankDelta "rankΔ" p.rank cur.rank with _ | r3 <;>
        rcases h4 : MC.reasonBlock cfg.sold30Delta "sold30Δ" p.sold30 cur.sold30 with _ | r4 <;>
          simp [h1, h2, h3, h4]

/-- C5: for every configuration and current snapshot, both diff evaluators
return significant with the single reason new when the previous snapshot is
absent (buildDiff labels it NEW). -/
theorem c5_new_item (cfg : Cfg) (curr : Curr) :
    M1.buildDiff cfg none curr = ⟨true, "NEW"⟩ ∧
    MC.shouldNotifyByDiff cfg none curr = ⟨true, ["new"]⟩ :=
  ⟨rfl, rfl⟩

/-- C3: whenever exactly one of the previous and current price is present,
buildDiff marks the pair significant, independently of any magnitude
threshold. -/
theorem c3_price_presence_change (cfg : Cfg) (pv : M1.Entry) (curr : Curr)
    (h : pv.price.isSome ≠ curr.price.isSome) :
    (M1.buildDiff cfg (some pv) curr).changed = true := by
  rw [buildDiff_changed]
  rcases hp : pv.price with _ | p <;> rcases hc : curr.price with _ | c
  · rw [hp, hc] at h; exact absurd rfl h
  · rw [priceBlock_appear]; simp
  · rw [priceBlock_disappear]; simp
  · rw [hp, hc] at h; exact absurd rfl h

/-- C3 witness: the price disappeared between the scenario snapshots, and
buildDiff marks the pair significant. -/
theorem c3_price_presence_change_witness :
    scenPrev.price.isSome ≠ (scenCurr none).price.isSome ∧
    (M1.buildDiff defaultCfg (some scenPrev) (scenCurr none)).changed = true :=
  ⟨by simp [scenPrev, scenCurr],
   c3_price_presence_change defaultCfg scenPrev (scenCurr none) (by simp [scenPrev, scenCurr])⟩

/-- C1: a metric delta exactly equal to its configured threshold is
significant in both diff evaluators; when every available metric delta is
strictly below its threshold and no presence change fires, the pair is not
significant.  The default thresholds are 200, 5000, 1, 5, and the scenario
prev price 1000 against curr 1250 is significant while curr 1150 is not. -/
theorem c1_threshold_boundary (cfg : Cfg) (pv : M1.Entry) (pm : MC.Entry) (curr : Curr) :
    ((∀ p c, pv.price = some p → curr.price = some c → |c - p| = cfg.priceDelta →
        (M1.buildDiff cfg (some pv) curr).changed = true) ∧
     (∀ p c, pv.rank = some p → curr.rank = some c → |c - p| = cfg.rankDelta →
        (M1.buildDiff cfg (some pv) curr).changed = true) ∧
     (∀ p c, pv.sellers = some p → curr.sellers = some c → |c - p| = cfg.sellersDelta →
        (M1.buildDiff cfg (some pv) curr).changed = true) ∧
     (∀ p c, pv.sold30 = some p → curr.sold30 = some c → |c - p| = cfg.sold30Delta →
        (M1.buildDiff cfg (some pv) curr).changed = true)) ∧
    (pv.price.isSome = curr.price.isSome →
     (∀ p c, pv.price = some p → curr.price = some c → |c - p| < cfg.priceDelta) →
     (∀ p c, pv.rank = some p → curr.rank = some c → |c - p| < cfg.rankDelta) →
     (∀ p c, pv.sellers = some p → curr.sellers = some c → |c - p| < cfg.sellersDelta) →
     (∀ p c, pv.sold30 = some p → curr.sold30 = some c → |c - p| < cfg.sold30Delta) →
        (M1.buildDiff cfg (some pv) curr).changed = false) ∧
    ((∀ p c, pm.price = some p → curr.price = some c → |c - p| = cfg.priceDelta →
        (MC.shouldNotifyByDiff cfg (some pm) curr).ok = true) ∧
     (∀ p c, pm.rank = some p → curr.rank = some c → |c - p| = cfg.rankDelta →
        (MC.shouldNotifyByDiff cfg (some pm) curr).ok = true) ∧
     (∀ p c, pm.sellers = some p → curr.sellers = some c → |c - p| = cfg.sellersDelta →
        (MC.shouldNotifyByDiff cfg (some pm) curr).ok = true) ∧
     (∀ p c, pm.sold30 = some p → curr.sold30 = some c → |c - p| = cfg.sold30Delta →
        (MC.shouldNotifyByDiff cfg (some pm) curr).ok = true)) ∧
    ((∀ p c, pm.price = some p → curr.price = some c → |c - p| < cfg.priceDelta) →
     (∀ p c, pm.rank = some p → curr.rank = some c → |c - p| < cfg.rankDelta) →
     (∀ p c, pm.sellers = some p → curr.sellers = some c → |c - p| < cfg.sellersDelta) →
     (∀ p c, pm.sold30 = some p → curr.sold30 = some c → |c - p| < cfg.sold30Delta) →
        (MC.shouldNotifyByDiff cfg (some pm) curr).ok = false) ∧
    (defaultCfg.priceDelta = 200 ∧ defaultCfg.rankDelta = 5000 ∧
     defaultCfg.sellersDelta = 1 ∧ defaultCfg.sold30Delta = 5) ∧
    (M1.buildDiff defaultCfg (some scenPrev) (scenCurr (some 1250))).changed = true ∧
    (M1.buildDiff defaultCfg (some scenPrev) (scenCurr (some 1150))).changed = false ∧
    (MC.shouldNotifyByDiff defaultCfg (some scenPrevMC) (scenCurr (some 1250))).ok = true ∧
    (MC.shouldNotifyByDiff defaultCfg (some scenPrevMC) (scenCurr (some 1150))).ok = false := by
  refine ⟨⟨?_, ?_, ?_, ?_⟩, ?_, ⟨?_, ?_, ?_, ?_⟩, ?_, ⟨rfl, rfl, rfl, rfl⟩,
    by decide, by decide, by decide, by decide⟩
  · intro p c hp hc he
    rw [buildDiff_changed, hp, hc, priceBlock_both, he]
    simp
  · intro p c hp hc he
    rw [buildDiff_changed, hp, hc, deltaBlock_both, he]
    simp
  · intro p c hp hc he
    rw [buildDiff_changed, hp, hc, deltaBlock_both, he]
    simp
  · intro p c hp hc he
    rw [buildDiff_changed, hp, hc, deltaBlock_both, he]
    simp
  · intro hpp h1 h2 h3 h4
    rw [buildDiff_changed]
    have hpb : (M1.priceBlock cfg pv.price curr.price).1 = false := by
      rcases hp : pv.price with _ | p <;> rcases hc : curr.price with _ | c
      · exact priceBlock_none_none cfg
      · rw [hp, hc] at hpp; simp at hpp
      · rw [hp, hc] at hpp; simp at hpp
      · rw [priceBlock_both]
        simpa [not_le] using h1 p c hp hc
    have hrb : (M1.deltaBlock cfg.rankDelta "ランク " "" pv.rank curr.rank).1 = false := by
      rcases hp : pv.rank with _ | p <;> rcases hc : curr.rank with _ | c
      · exact deltaBlock_curr_none _ _ _ _
      · exact deltaBlock_prev_none _ _ _ _
      · exact deltaBlock_curr_none _ _ _ _
      · rw [deltaBlock_both]
        simpa [not_le] using h2 p c hp hc
    have hsb : (M1.deltaBlock cfg.sellersDelta "出品者 " "" pv.sellers curr.sellers).1 = false := by
      rcases hp : pv.sellers with _ | p <;> rcases hc : curr.sellers with _ | c
      · exact deltaBlock_curr_none _ _ _ _
      · exact deltaBlock_prev_none _ _ _ _
      · exact deltaBlock_curr_none _ _ _ _
      · rw [deltaBlock_both]
        simpa [not_le] using h3 p c hp hc
    have hdb : (M1.deltaBlock cfg.sold30Delta "30日販売数 " "" pv.sold30 curr.sold30).1 = false := by
      rcases hp : pv.sold30 with _ | p <;> rcases hc : curr.sold30 with _ | c
      · exact deltaBlock_curr_none _ _ _ _
      · exact deltaBlock_prev_none _ _ _ _
      · exact deltaBlock_curr_none _ _ _ _
      · rw [deltaBlock_both]
        simpa [not_le] using h4 p c hp hc
    rw [hpb, hrb, hsb, hdb]
    rfl
  · intro p c hp hc he
    rw [shouldNotify_ok_eq, hp, hc, reasonBlock_both, abs_sub_comm p c, he]
    simp
  · intro p c hp hc he
    rw [shouldNotify_ok_eq, hp, hc, reasonBlock_both, abs_sub_comm p c, he]
    simp
  · intro p c hp hc he
    rw [shouldNotify_ok_eq, hp, hc, reasonBlock_both, abs_sub_comm p c, he]
    simp
  · intro p c hp hc he
    rw [shouldNotify_ok_eq, hp, hc, reasonBlock_both, abs_sub_comm p c, he]
    simp
  · intro h1 h2 h3 h4
    rw [shouldNotify_ok_eq]
    have hpb : (MC.reasonBlock cfg.priceDelta "priceΔ" pm.price curr.price).isSome = false := by
      rcases hp : pm.price with _ | p <;> rcases hc : curr.price with _ | c
      · exact reasonBlock_b_none _ _ _
      · exact reasonBlock_a_none _ _ _
      · exact reasonBlock_b_none _ _ _
      · rw [reasonBlock_both, abs_sub_comm p c]
        simpa [not_le] using h1 p c hp hc
    have hsb : (MC.reasonBlock cfg.sellersDelta "sellersΔ" pm.sellers curr.sellers).isSome = false := by
      rcases hp : pm.sellers with _ | p <;> rcases hc : curr.sellers with _ | c
      · exact reasonBlock_b_none _ _ _
      · exact reasonBlock_a_none _ _ _
      · exact reasonBlock_b_none _ _ _
      · rw [reasonBlock_both, abs_sub_comm p c]
        simpa [not_le] using h3 p c hp hc
    have hrb : (MC.reasonBlock cfg.rankDelta "rankΔ" pm.rank curr.rank).isSome = false := by
      rcases hp : pm.rank with _ | p <;> rcases hc : curr.rank with _ | c
      · exact reasonBlock_b_none _ _ _
      · exact reasonBlock_a_none _ _ _
      · exact reasonBlock_b_none _ _ _
      · rw [reasonBlock_both, abs_sub_comm p c]
        simpa [not_le] using h2 p c hp hc
    have hdb : (MC.reasonBlock cfg.sold30Delta "sold30Δ" pm.sold30 curr.sold30).isSome = false := by
      rcases hp : pm.sold30 with _ | p <;> rcases hc : curr.sold30 with _ | c
      · exact reasonBlock_b_none _ _ _
      · exact reasonBlock_a_none _ _ _
      · exact reasonBlock_b_none _ _ _
      · rw [reasonBlock_both, abs_sub_comm p c]
        simpa [not_le] using h4 p c hp hc
    rw [hpb, hrb, hsb, hdb]
    rfl

/-- C1 witness: a price delta of exactly 200 yen against the default
threshold is significant in both evaluators. -/
theorem c1_threshold_boundary_witness :
    scenPrev.price = some 1000 ∧ (scenCurr (some 1200)).price = some 1200 ∧
    |(1200 : Int) - 1000| = defaultCfg.priceDelta ∧
    scenPrevMC.price = some 1000 ∧
    (M1.buildDiff defaultCfg (some scenPrev) (scenCurr (some 1200))).changed = true ∧
    (MC.shouldNotifyByDiff defaultCfg (some scenPrevMC) (scenCurr (some 1200))).ok = true :=
  ⟨rfl, rfl, by decide, rfl,
   (c1_threshold_boundary defaultCfg scenPrev scenPrevMC (scenCurr (some 1200))).1.1
     1000 1200 rfl rfl (by decide),
   (c1_threshold_boundary defaultCfg scenPrev scenPrevMC (scenCurr (some 1200))).2.2.1.1
     1000 1200 rfl rfl (by decide)⟩

theorem lookup_setKey {α : Type} (l : List (String × α)) (k : String) (v : α) :
    (setKey l k v).lookup k = some v := by
  induction l with
  | nil => simp [setKey]
  | cons hd tl ih =>
    obtain ⟨k0, v0⟩ := hd
    by_cases h : k0 = k
    · subst h
      simp [setKey]
    · have hb : (k0 == k) = false := beq_eq_false_iff_ne.mpr h
      have hb2 : (k == k0) = false := beq_eq_false_iff_ne.mpr (Ne.symm h)
      simp only [setKey, hb, if_false, Bool.false_eq_true]
      simpa [List.lookup, hb2] using ih

theorem inCooldown_iff (cfg : Cfg) (now : Int) (q : M1.Entry) :
    M1.inCooldown cfg now (some q) = true ↔
      (q.lastNotifiedAt ≠ 0 ∧ now - q.lastNotifiedAt < cfg.cooldownHours * 60 * 60 * 1000) := by
  by_cases h0 : q.lastNotifiedAt = 0 <;> simp [M1.inCooldown, h0]

/-- C2: a significant diff during the cooldown window is suppressed from
notification, but the stored snapshot still takes the current metric values
and a fresh lastSeenAt while lastNotifiedAt keeps its previous value; and
inCooldown holds exactly when lastNotifiedAt is non-zero and within the
window (6 hours by default). -/
theorem c2_cooldown_suppression (cfg : Cfg) (ed : Bool) (now : Int) (st : M1.State)
    (p : Product) (asin : String) (q : M1.Entry) (sell pr : Int)
    (hasin : p.asin = some asin) (hne : asin ≠ "")
    (hdig : (ed && isDigitalTitle p.title) = false)
    (hamz : M1.amazonBlocked p = false)
    (hsell : M1.derivedSellers p = some sell) (hs3 : ¬ sell < 3)
    (hpr : M1.derivedPrice p = some pr) (hmin : ¬ pr < cfg.minPriceYen)
    (hq : st.asins.lookup asin = some q)
    (hch : (M1.buildDiff cfg (some q) (M1.currOf asin p)).changed = true)
    (hcool : M1.inCooldown cfg now (some q) = true) :
    (M1.processItem cfg ed now st p =
      ({ st with
           asins := setKey st.asins asin
                      (M1.updatedEntry asin (M1.currOf asin p) (some q) now) },
       none)) ∧
    (setKey st.asins asin (M1.updatedEntry asin (M1.currOf asin p) (some q) now)).lookup asin =
      some (M1.updatedEntry asin (M1.currOf asin p) (some q) now) ∧
    (M1.updatedEntry asin (M1.currOf asin p) (some q) now).price = (M1.currOf asin p).price ∧
    (M1.updatedEntry asin (M1.currOf asin p) (some q) now).rank = (M1.currOf asin p).rank ∧
    (M1.updatedEntry asin (M1.currOf asin p) (some q) now).sellers = (M1.currOf asin p).sellers ∧
    (M1.updatedEntry asin (M1.currOf asin p) (some q) now).sold30 = (M1.currOf asin p).sold30 ∧
    (M1.updatedEntry asin (M1.currOf asin p) (some q) now).lastSeenAt = some (.jnum now) ∧
    (M1.updatedEntry asin (M1.currOf asin p) (some q) now).lastNotifiedAt = q.lastNotifiedAt ∧
    (∀ q' : M1.Entry, M1.inCooldown cfg now (some q') = true ↔
      (q'.lastNotifiedAt ≠ 0 ∧ now - q'.lastNotifiedAt < cfg.cooldownHours * 60 * 60 * 1000)) ∧
    defaultCfg.cooldownHours = 6 := by
  refine ⟨?_, lookup_setKey _ _ _, rfl, rfl, rfl, rfl, rfl, rfl,
    fun q' => inCooldown_iff cfg now q', rfl⟩
  simp only [M1.processItem, hasin, hdig, hamz, hsell, hpr, hq]
  simp only [hch, hcool]
  simp [hne, hs3, hmin]

/-- C2 witness: a concrete admitted product with a significant price move
while the previous snapshot is in cooldown at time 100: nothing is picked
and the stored entry follows the current values. -/
theorem c2_cooldown_suppression_witness :
    (scenProd (some 5) (some 5000)).asin = some "B000SCEN01" ∧
    M1.derivedSellers (scenProd (some 5) (some 5000)) = some 5 ∧
    M1.derivedPrice (scenProd (some 5) (some 5000)) = some 5000 ∧
    cdState.asins.lookup "B000SCEN01" = some cdPrev ∧
    (M1.buildDiff defaultCfg (some cdPrev)
      (M1.currOf "B000SCEN01" (scenProd (some 5) (some 5000)))).changed = true ∧
    M1.inCooldown defaultCfg 100 (some cdPrev) = true ∧
    (M1.processItem defaultCfg false 100 cdState (scenProd (some 5) (some 5000)) =
      ({ cdState with
           asins := setKey cdState.asins "B000SCEN01"
                      (M1.updatedEntry "B000SCEN01"
                        (M1.currOf "B000SCEN01" (scenProd (some 5) (some 5000)))
                        (some cdPrev) 100) },
       none)) :=
  ⟨rfl, rfl, rfl, rfl, by decide, by decide,
   (c2_cooldown_suppression defaultCfg false 100 cdState (scenProd (some 5) (some 5000))
      "B000SCEN01" cdPrev 5 5000 rfl (by decide) rfl rfl rfl (by decide) rfl (by decide)
      rfl (by decide) (by decide)).1⟩

theorem mem_setKey {α : Type} (l : List (String × α)) (k : String) (v : α) (kv : String × α)
    (h : kv ∈ setKey l k v) : kv ∈ l ∨ kv.2 = v := by
  induction l with
  | nil =>
    simp [setKey] at h
    subst h
    exact Or.inr rfl
  | cons hd tl ih =>
    obtain ⟨k0, v0⟩ := hd
    by_cases hb : k0 == k
    · simp only [setKey, hb, if_true] at h
      rcases List.mem_cons.mp h with h1 | h1
      · subst h1; exact Or.inr rfl
      · exact Or.inl (List.mem_cons_of_mem _ h1)
    · simp only [setKey, hb, Bool.false_eq_true, if_false] at h
      rcases List.mem_cons.mp h with h1 | h1
      · subst h1; exact Or.inl (List.mem_cons_self _ _)
      · rcases ih h1 with h2 | h2
        · exact Or.inl (List.mem_cons_of_mem _ h2)
        · exact Or.inr h2

theorem processItem_cases (cfg : Cfg) (ed : Bool) (now : Int) (st : M1.State) (p : Product) :
    M1.processItem cfg ed now st p = (st, none) ∨
    (∃ asin s pr, p.asin = some asin ∧ M1.derivedSellers p = some s ∧ ¬ s < 3 ∧
      M1.derivedPrice p = some pr ∧ ¬ pr < cfg.minPriceYen ∧
      (M1.processItem cfg ed now st p).1 =
        { st with asins := setKey st.asins asin
                    (M1.updatedEntry asin (M1.currOf asin p) (st.asins.lookup asin) now) } ∧
      ((M1.processItem cfg ed now st p).2 = none ∨
       (M1.processItem cfg ed now st p).2 =
         some ⟨M1.currOf asin p,
               (M1.buildDiff cfg (st.asins.lookup asin) (M1.currOf asin p)).label⟩)) := by
  rcases hA : p.asin with _ | asin
  · exact Or.inl (by simp [M1.processItem, hA])
  by_cases hne : asin = ""
  · exact Or.inl (by simp [M1.processItem, hA, hne])
  by_cases hdig : (ed && isDigitalTitle p.title) = true
  · exact Or.inl (by simp [M1.processItem, hA, hne, hdig])
  by_cases hamz : M1.amazonBlocked p = true
  · exact Or.inl (by simp [M1.processItem, hA, hne, hdig, hamz])
  rcases hs : M1.derivedSellers p with _ | s
  · exact Or.inl (by simp [M1.processItem, hA, hne, hdig, hamz, hs])
  by_cases hs3 : s < 3
  · exact Or.inl (by simp [M1.processItem, hA, hne, hdig, hamz, hs, hs3])
  rcases hp : M1.derivedPrice p with _ | pr
  · exact Or.inl (by simp [M1.processItem, hA, hne, hdig, hamz, hs, hs3, hp])
  by_cases hmin : pr < cfg.minPriceYen
  · exact Or.inl (by simp [M1.processItem, hA, hne, hdig, hamz, hs, hs3, hp, hmin])
  have hstate : (M1.processItem cfg ed now st p).1 =
      { st with asins := setKey st.asins asin
                  (M1.updatedEntry asin (M1.currOf asin p) (st.asins.lookup asin) now) } := by
    simp only [M1.processItem, hA, hs, hp]
    rw [if_neg hne, if_neg hdig, if_neg hamz, if_neg hs3, if_neg hmin]
    split
    · rfl
    · split <;> rfl
  have hpick : (M1.processItem cfg ed now st p).2 = none ∨
      (M1.processItem cfg ed now st p).2 =
        some ⟨M1.currOf asin p,
              (M1.buildDiff cfg (st.asins.lookup asin) (M1.currOf asin p)).label⟩ := by
    simp only [M1.processItem, hA, hs, hp]
    rw [if_neg hne, if_neg hdig, if_neg hamz, if_neg hs3, if_neg hmin]
    split
    · exact Or.inl rfl
    · split
      · exact Or.inl rfl
      · exact Or.inr rfl
  exact Or.inr ⟨asin, s, pr, rfl, rfl, hs3, rfl, hmin, hstate, hpick⟩

theorem processItem_good (cfg : Cfg) (ed : Bool) (now : Int) (st : M1.State) (p : Product)
    (hst : M1.goodState cfg st) :
    M1.goodState cfg (M1.processItem cfg ed now st p).1 ∧
    (∀ pk : M1.Picked, (M1.processItem cfg ed now st p).2 = some pk →
      M1.goodCurr cfg pk.curr) := by
  rcases processItem_cases cfg ed now st p with
    h | ⟨asin, s, pr, hA, hs, hs3, hp, hmin, hstate, hpick⟩
  · rw [h]
    exact ⟨hst, fun pk hpk => Option.noConfusion hpk⟩
  · constructor
    · rw [hstate]
      intro kv hkv
      rcases mem_setKey _ _ _ _ hkv with hm | hm
      · exact hst kv hm
      · rw [hm]
        exact ⟨⟨s, hs, by omega⟩, ⟨pr, hp, by omega⟩⟩
    · intro pk hpk
      rcases hpick with h2 | h2
      · rw [h2] at hpk; cases hpk
      · rw [h2] at hpk
        injection hpk with he
        subst he
        exact ⟨⟨s, hs, by omega⟩, ⟨pr, hp, by omega⟩⟩

theorem processItems_good (cfg : Cfg) (ed : Bool) (pl mn : Nat) (now : Int) :
    ∀ (ps : List Product) (st : M1.State) (picked : List M1.Picked),
      M1.goodState cfg st → (∀ pk ∈ picked, M1.goodCurr cfg pk.curr) →
      M1.goodState cfg (M1.processItems cfg ed pl mn now st picked ps).1 ∧
      ∀ pk ∈ (M1.processItems cfg ed pl mn now st picked ps).2, M1.goodCurr cfg pk.curr := by
  intro ps
  induction ps with
  | nil =>
    intro st picked hst hpk
    exact ⟨hst, hpk⟩
  | cons p rest ih =>
    intro st picked hst hpk
    have hgood := processItem_good cfg ed now st p hst
    rcases hPI : M1.processItem cfg ed now st p with ⟨st', r⟩
    have hst' : M1.goodState cfg st' := by
      have h1 := hgood.1; rw [hPI] at h1; exact h1
    rcases r with _ | pk
    · have hstep : M1.processItems cfg ed pl mn now st picked (p :: rest) =
          M1.processItems cfg ed pl mn now st' picked rest := by
        simp only [M1.processItems, hPI]
      rw [hstep]
      exact ih st' picked hst' hpk
    · have hpkg : M1.goodCurr cfg pk.curr := by
        have h2 := hgood.2 pk; rw [hPI] at h2; exact h2 rfl
      have hpk' : ∀ x ∈ picked ++ [pk], M1.goodCurr cfg x.curr := by
        intro x hx
        rcases List.mem_append.mp hx with hx1 | hx1
        · exact hpk x hx1
        · rw [List.mem_singleton.mp hx1]
          exact hpkg
      by_cases hlim : pl ≤ (picked ++ [pk]).length ∨ mn ≤ (picked ++ [pk]).length
      · have hstep : M1.processItems cfg ed pl mn now st picked (p :: rest) =
            (st', picked ++ [pk]) := by
          simp only [M1.processItems, hPI]
          rw [if_pos hlim]
        rw [hstep]
        exact ⟨hst', hpk'⟩
      · have hstep : M1.processItems cfg ed pl mn now st picked (p :: rest) =
            M1.processItems cfg ed pl mn now st' (picked ++ [pk]) rest := by
          simp only [M1.processItems, hPI]
          rw [if_neg hlim]
        rw [hstep]
        exact ih st' (picked ++ [pk]) hst' hpk'

/-- C4: an item whose seller count is null or below 3, or whose derived
price is null or below the configured floor, leaves the state untouched and
is never picked for notification; consequently, starting from a state whose
entries all satisfy the admission invariant, after processing any product
list every stored entry still has sellers at least 3 and price at least the
floor, and so does every notified item. -/
theorem c4_admission_filter (cfg : Cfg) (ed : Bool) (now : Int) :
    (∀ (st : M1.State) (p : Product),
        ((M1.derivedSellers p = none ∨ (∃ s, M1.derivedSellers p = some s ∧ s < 3)) ∨
         (M1.derivedPrice p = none ∨ (∃ pr, M1.derivedPrice p = some pr ∧ pr < cfg.minPriceYen))) →
        M1.processItem cfg ed now st p = (st, none)) ∧
    (∀ (pl mn : Nat) (ps : List Product) (st : M1.State), M1.goodState cfg st →
        M1.goodState cfg (M1.processItems cfg ed pl mn now st [] ps).1 ∧
        ∀ pk ∈ (M1.processItems cfg ed pl mn now st [] ps).2, M1.goodCurr cfg pk.curr) := by
  constructor
  · intro st p h
    rcases processItem_cases cfg ed now st p with
      hc | ⟨asin, s, pr, hA, hs, hs3, hp, hmin, hstate, hpick⟩
    · exact hc
    · exfalso
      rcases h with (hh | ⟨s', hes, hlt⟩) | (hh | ⟨pr', hes, hlt⟩)
      · rw [hs] at hh; exact Option.noConfusion hh
      · rw [hs] at hes; injection hes with he; omega
      · rw [hp] at hh; exact Option.noConfusion hh
      · rw [hp] at hes; injection hes with he; omega
  · intro pl mn ps st hst
    exact processItems_good cfg ed pl mn now ps st [] hst (fun pk hpk => by cases hpk)

/-- C4 witness: a product with seller count 2 is dropped: the state is
unchanged and nothing is picked. -/
theorem c4_admission_filter_witness :
    M1.derivedSellers (scenProd (some 2) (some 5000)) = some 2 ∧ (2 : Int) < 3 ∧
    M1.processItem defaultCfg false 100 cdState (scenProd (some 2) (some 5000)) =
      (cdState, none) :=
  ⟨rfl, by decide,
   (c4_admission_filter defaultCfg false 100).1 cdState (scenProd (some 2) (some 5000))
     (Or.inl (Or.inr ⟨2, rfl, by decide⟩))⟩

theorem length_filter_not_add_countP {α : Type} (p : α → Bool) (l : List α) :
    (l.filter (fun a => !p a)).length + l.countP p = l.length := by
  induction l with
  | nil => rfl
  | cons a tl ih =>
    by_cases h : p a <;> simp [List.filter_cons, List.countP_cons, h] <;> omega

theorem entryExpired_true_m1 (cfg : Cfg) (now : Int) (e : M1.Entry) (n : Int)
    (hls : e.lastSeenAt = some (.jnum n)) (hpos : 0 < n)
    (hold : n < now - cfg.stateTtlDays * 24 * 60 * 60 * 1000) :
    M1.entryExpired cfg now e = true := by
  simp [M1.entryExpired, hls, hpos, hold]

theorem entryExpired_false_m1 (cfg : Cfg) (now : Int) (e : M1.Entry) (n : Int)
    (hls : e.lastSeenAt = some (.jnum n))
    (hyoung : now - cfg.stateTtlDays * 24 * 60 * 60 * 1000 ≤ n) :
    M1.entryExpired cfg now e = false := by
  simp [M1.entryExpired, hls, not_lt.mpr hyoung]

theorem entryExpired_true_mc (cfg : Cfg) (now : Int) (e : MC.Entry) (n : Int)
    (hls : e.lastSeenAt = some (.jnum n)) (hpos : 0 < n)
    (hold : n < now - cfg.stateTtlDays * 86400) :
    MC.entryExpired cfg now e = true := by
  simp [MC.entryExpired, hls, hpos, hold]

theorem entryExpired_false_mc (cfg : Cfg) (now : Int) (e : MC.Entry) (n : Int)
    (hls : e.lastSeenAt = some (.jnum n))
    (hyoung : now - cfg.stateTtlDays * 86400 ≤ n) :
    MC.entryExpired cfg now e = false := by
  simp [MC.entryExpired, hls, not_lt.mpr hyoung]

/-- C6: pruning removes exactly the entries whose numeric positive
lastSeenAt is strictly older than the cutoff, keeps every entry at or after
the cutoff unchanged, and the removed count plus the kept size is the
original size; the same holds for cleanupState in the seconds variant. -/
theorem c6_prune_ttl (cfg : Cfg) (now : Int) :
    (∀ (st : M1.State) (k : String) (e : M1.Entry) (n : Int), (k, e) ∈ st.asins →
        e.lastSeenAt = some (.jnum n) → 0 < n →
        n < now - cfg.stateTtlDays * 24 * 60 * 60 * 1000 →
        (k, e) ∉ (M1.pruneState cfg now st).1.asins) ∧
    (∀ (st : M1.State) (k : String) (e : M1.Entry) (n : Int), (k, e) ∈ st.asins →
        e.lastSeenAt = some (.jnum n) →
        now - cfg.stateTtlDays * 24 * 60 * 60 * 1000 ≤ n →
        (k, e) ∈ (M1.pruneState cfg now st).1.asins) ∧
    (∀ st : M1.State,
        (M1.pruneState cfg now st).1.asins.length + (M1.pruneState cfg now st).2 =
          st.asins.length) ∧
    (∀ (st : MC.State) (k : String) (e : MC.Entry) (n : Int), (k, e) ∈ st.asins →
        e.lastSeenAt = some (.jnum n) → 0 < n → n < now - cfg.stateTtlDays * 86400 →
        (k, e) ∉ (MC.cleanupState cfg now st).1.asins) ∧
    (∀ (st : MC.State) (k : String) (e : MC.Entry) (n : Int), (k, e) ∈ st.asins →
        e.lastSeenAt = some (.jnum n) → now - cfg.stateTtlDays * 86400 ≤ n →
        (k, e) ∈ (MC.cleanupState cfg now st).1.asins) ∧
    (∀ st : MC.State,
        (MC.cleanupState cfg now st).1.asins.length + (MC.cleanupState cfg now st).2 =
          st.asins.length) := by
  refine ⟨?_, ?_, ?_, ?_, ?_, ?_⟩
  · intro st k e n hmem hls hpos hold hin
    have h2 := (List.mem_filter.mp hin).2
    rw [entryExpired_true_m1 cfg now e n hls hpos hold] at h2
    cases h2
  · intro st k e n hmem hls hyoung
    exact List.mem_filter.mpr
      ⟨hmem, by rw [entryExpired_false_m1 cfg now e n hls hyoung]; rfl⟩
  · intro st
    exact length_filter_not_add_countP (fun kv => M1.entryExpired cfg now kv.2) st.asins
  · intro st k e n hmem hls hpos hold hin
    have h2 := (List.mem_filter.mp hin).2
    rw [entryExpired_true_mc cfg now e n hls hpos hold] at h2
    cases h2
  · intro st k e n hmem hls hyoung
    exact List.mem_filter.mpr
      ⟨hmem, by rw [entryExpired_false_mc cfg now e n hls hyoung]; rfl⟩
  · intro st
    exact length_filter_not_add_countP (fun kv => MC.entryExpired cfg now kv.2) st.asins

/-- C6 witness: with the default 30-day TTL and the clock at 3000000000 ms
the cutoff is 408000000; the entry one millisecond older is pruned and the
entry exactly at the cutoff stays. -/
theorem c6_prune_ttl_witness :
    ("old", prEnt (some (.jnum 407999999))) ∈ prState.asins ∧
    (0 : Int) < 407999999 ∧
    (407999999 : Int) < 3000000000 - defaultCfg.stateTtlDays * 24 * 60 * 60 * 1000 ∧
    ("old", prEnt (some (.jnum 407999999))) ∉
      (M1.pruneState defaultCfg 3000000000 prState).1.asins ∧
    ("edge", prEnt (some (.jnum 408000000))) ∈ prState.asins ∧
    (3000000000 : Int) - defaultCfg.stateTtlDays * 24 * 60 * 60 * 1000 ≤ 408000000 ∧
    ("edge", prEnt (some (.jnum 408000000))) ∈
      (M1.pruneState defaultCfg 3000000000 prState).1.asins :=
  ⟨List.mem_cons_self _ _, by decide, by decide,
   (c6_prune_ttl defaultCfg 3000000000).1 prState "old" (prEnt (some (.jnum 407999999)))
     407999999 (List.mem_cons_self _ _) rfl (by decide) (by decide),
   List.mem_cons_of_mem _ (List.mem_cons_self _ _), by decide,
   (c6_prune_ttl defaultCfg 3000000000).2.1 prState "edge" (prEnt (some (.jnum 408000000)))
     408000000 (List.mem_cons_of_mem _ (List.mem_cons_self _ _)) rfl (by decide)⟩

/-- C10: neither pruneState nor cleanupState ever removes an entry whose
lastSeenAt is absent, null, non-numeric, or not strictly positive — such
entries stay for every clock value and TTL — and an entry that does get
removed necessarily has a numeric lastSeenAt strictly positive and strictly
below the cutoff. -/
theorem c10_prune_invalid_lastseen (cfg : Cfg) (now : Int) :
    (∀ (st : M1.State) (k : String) (e : M1.Entry), (k, e) ∈ st.asins →
        (∀ n : Int, e.lastSeenAt = some (.jnum n) → n ≤ 0) →
        (k, e) ∈ (M1.pruneState cfg now st).1.asins) ∧
    (∀ (st : MC.State) (k : String) (e : MC.Entry), (k, e) ∈ st.asins →
        (∀ n : Int, e.lastSeenAt = some (.jnum n) → n ≤ 0) →
        (k, e) ∈ (MC.cleanupState cfg now st).1.asins) ∧
    (∀ (st : M1.State) (k : String) (e : M1.Entry), (k, e) ∈ st.asins →
        (k, e) ∉ (M1.pruneState cfg now st).1.asins →
        ∃ n : Int, e.lastSeenAt = some (.jnum n) ∧ 0 < n ∧
          n < now - cfg.stateTtlDays * 24 * 60 * 60 * 1000) ∧
    (∀ (st : MC.State) (k : String) (e : MC.Entry), (k, e) ∈ st.asins →
        (k, e) ∉ (MC.cleanupState cfg now st).1.asins →
        ∃ n : Int, e.lastSeenAt = some (.jnum n) ∧ 0 < n ∧
          n < now - cfg.stateTtlDays * 86400) := by
  refine ⟨?_, ?_, ?_, ?_⟩
  · intro st k e hmem hval
    refine List.mem_filter.mpr ⟨hmem, ?_⟩
    rcases hls : e.lastSeenAt with _ | v
    · simp [M1.entryExpired, hls]
    · rcases v with _ | b | n | s | xs | fs
      · simp [M1.entryExpired, hls]
      · simp [M1.entryExpired, hls]
      · have := hval n hls
        simp [M1.entryExpired, hls, not_lt.mpr this]
      · simp [M1.entryExpired, hls]
      · simp [M1.entryExpired, hls]
      · simp [M1.entryExpired, hls]
  · intro st k e hmem hval
    refine List.mem_filter.mpr ⟨hmem, ?_⟩
    rcases hls : e.lastSeenAt with _ | v
    · simp [MC.entryExpired, hls]
    · rcases v with _ | b | n | s | xs | fs
      · simp [MC.entryExpired, hls]
      · simp [MC.entryExpired, hls]
      · have := hval n hls
        simp [MC.entryExpired, hls, not_lt.mpr this]
      · simp [MC.entryExpired, hls]
      · simp [MC.entryExpired, hls]
      · simp [MC.entryExpired, hls]
  · intro st k e hmem hnot
    have hexp : M1.entryExpired cfg now e = true := by
      by_contra hne
      exact hnot (List.mem_filter.mpr ⟨hmem, by simp [Bool.not_eq_true] at hne; simp [hne]⟩)
    rcases hls : e.lastSeenAt with _ | v
    · rw [M1.entryExpired] at hexp; simp [hls] at hexp
    · rcases v with _ | b | n | s | xs | fs
      · rw [M1.entryExpired] at hexp; simp [hls] at hexp
      · rw [M1.entryExpired] at hexp; simp [hls] at hexp
      · rw [M1.entryExpired] at hexp; simp [hls] at hexp
        exact ⟨n, rfl, hexp.1, hexp.2⟩
      · rw [M1.entryExpired] at hexp; simp [hls] at hexp
      · rw [M1.entryExpired] at hexp; simp [hls] at hexp
      · rw [M1.entryExpired] at hexp; simp [hls] at hexp
  · intro st k e hmem hnot
    have hexp : MC.entryExpired cfg now e = true := by
      by_contra hne
      exact hnot (List.mem_filter.mpr ⟨hmem, by simp [Bool.not_eq_true] at hne; simp [hne]⟩)
    rcases hls : e.lastSeenAt with _ | v
    · rw [MC.entryExpired] at hexp; simp [hls] at hexp
    · rcases v with _ | b | n | s | xs | fs
      · rw [MC.entryExpired] at hexp; simp [hls] at hexp
      · rw [MC.entryExpired] at hexp; simp [hls] at hexp
      · rw [MC.entryExpired] at hexp; simp [hls] at hexp
        exact ⟨n, rfl, hexp.1, hexp.2⟩
      · rw [MC.entryExpired] at hexp; simp [hls] at hexp
      · rw [MC.entryExpired] at hexp; simp [hls] at hexp
      · rw [MC.entryExpired] at hexp; simp [hls] at hexp

/-- C10 witness: an aged entry whose lastSeenAt is the string
"not-a-number" survives pruning at a clock far past any TTL. -/
theorem c10_prune_invalid_lastseen_witness :
    ("weird", prEnt (some (.jstr "not-a-number"))) ∈ prStateW.asins ∧
    ("weird", prEnt (some (.jstr "not-a-number"))) ∈
      (M1.pruneState defaultCfg 3000000000 prStateW).1.asins :=
  ⟨List.mem_cons_self _ _,
   (c10_prune_invalid_lastseen defaultCfg 3000000000).1 prStateW "weird"
     (prEnt (some (.jstr "not-a-number"))) (List.mem_cons_self _ _)
     (fun n h => by simp [prEnt] at h)⟩

/-- C7 counterexample: a readable state file holding the JSON object with a
numeric version 7 and no item mapping is one of the claimed conditions
(missing the item mapping), yet load keeps version 7 instead of returning
the fresh store with version 1. -/
theorem c7_load_counterexample :
    (JVal.jobj [("version", .jnum 7)]).getField "asins" = none ∧
    (M1.loadState (.json (.jobj [("version", .jnum 7)]))).version = .jnum 7 ∧
    ¬ (M1.loadState (.json (.jobj [("version", .jnum 7)]))).version = .jnum 1 := by
  refine ⟨rfl, rfl, fun h => ?_⟩
  have h2 : JVal.jnum 7 = JVal.jnum 1 := h
  injection h2 with h3
  omega

/-- C7 amended: load never throws (it is total) and returns the fresh store
for an absent, unreadable, blank, unparseable, or non-object (by JS
truthiness and typeof) state file; when the file holds an object, a missing
or non-object mapping is replaced by an empty one, but numeric version and
updatedAt fields of the file are kept rather than reset. -/
theorem c7_load_amended :
    M1.loadState .absent = M1.freshLoaded ∧
    M1.loadState .unreadable = M1.freshLoaded ∧
    M1.loadState .blank = M1.freshLoaded ∧
    M1.loadState .notJson = M1.freshLoaded ∧
    (∀ v : JVal, (!v.truthy || !v.typeofObject) = true →
        M1.loadState (.json v) = M1.freshLoaded) ∧
    (∀ fields : List (String × JVal), (JVal.jobj fields).getField "asins" = none →
        (M1.loadState (.json (.jobj fields))).asins = .jobj []) ∧
    (∀ (fields : List (String × JVal)) (n : Int),
        (JVal.jobj fields).getField "version" = some (.jnum n) →
        (M1.loadState (.json (.jobj fields))).version = .jnum n) ∧
    (∀ (fields : List (String × JVal)) (n : Int),
        (JVal.jobj fields).getField "updatedAt" = some (.jnum n) →
        (M1.loadState (.json (.jobj fields))).updatedAt = .jnum n) := by
  refine ⟨rfl, rfl, rfl, rfl, ?_, ?_, ?_, ?_⟩
  · intro v h
    simp only [M1.loadState, M1.readJsonSafe]
    rw [if_pos h]
  · intro fields h
    simp only [M1.loadState, M1.readJsonSafe]
    rw [if_neg (by simp [JVal.truthy, JVal.typeofObject])]
    simp [h]
  · intro fields n h
    simp only [M1.loadState, M1.readJsonSafe]
    rw [if_neg (by simp [JVal.truthy, JVal.typeofObject])]
    simp [h]
  · intro fields n h
    simp only [M1.loadState, M1.readJsonSafe]
    rw [if_neg (by simp [JVal.truthy, JVal.typeofObject])]
    simp [h]

/-- C7 witness: a file holding the JSON number 3 loads as the fresh store,
and a file holding an object with version 7 keeps that version. -/
theorem c7_load_amended_witness :
    (!(JVal.jnum 3).truthy || !(JVal.jnum 3).typeofObject) = true ∧
    M1.loadState (.json (.jnum 3)) = M1.freshLoaded ∧
    (JVal.jobj [("version", .jnum 7)]).getField "version" = some (.jnum 7) ∧
    (M1.loadState (.json (.jobj [("version", .jnum 7)]))).version = .jnum 7 :=
  ⟨rfl,
   c7_load_amended.2.2.2.2.1 (.jnum 3) rfl,
   rfl,
   c7_load_amended.2.2.2.2.2.2.1 [("version", .jnum 7)] 7 rfl⟩

theorem tmp_ne (path : String) : path ++ ".tmp" ≠ path := by
  intro h
  have h2 := congrArg String.length h
  rw [String.length_append] at h2
  have h3 : (".tmp" : String).length = 4 := rfl
  omega

theorem lookup_setKey_ne {α : Type} (l : List (String × α)) (k' k : String) (v : α)
    (h : k' ≠ k) : (setKey l k v).lookup k' = l.lookup k' := by
  induction l with
  | nil => simp [setKey, List.lookup, beq_eq_false_iff_ne.mpr h]
  | cons hd tl ih =>
    obtain ⟨k0, v0⟩ := hd
    by_cases hb : k0 == k
    · have hk0 : k0 = k := eq_of_beq hb
      subst hk0
      simp [setKey, List.lookup, beq_eq_false_iff_ne.mpr h]
    · simp only [setKey, hb, Bool.false_eq_true, if_false]
      by_cases hb2 : k' == k0
      · simp [List.lookup, hb2]
      · simp [List.lookup, hb2, ih]

theorem atomic_prefix_lookup {σ : Type} (fs : List (String × σ)) (path : String) (doc : σ)
    (k : Nat) (hk : k ≤ 1) :
    (applyOps fs ((writeJsonAtomicOps path doc).take k)).lookup path = fs.lookup path := by
  match k, hk with
  | 0, _ => rfl
  | 1, _ =>
    show (setKey fs (path ++ ".tmp") doc).lookup path = fs.lookup path
    exact lookup_setKey_ne fs path (path ++ ".tmp") doc (Ne.symm (tmp_ne path))

theorem atomic_full_lookup {σ : Type} (fs : List (String × σ)) (path : String) (doc : σ) :
    (applyOps fs (writeJsonAtomicOps path doc)).lookup path = some doc := by
  show (applyOp (applyOp fs (.write (path ++ ".tmp") doc)) (.rename (path ++ ".tmp") path)).lookup
      path = some doc
  simp only [applyOp, lookup_setKey]

/-- C8 counterexample: in a run where the state file does not exist at
start, main writes the state file twice — an atomic creation write before
any profile runs (carrying the loaded document, whose updatedAt is not the
save time) and the end-of-run save — so the file is not written exactly
once. -/
theorem c8_save_counterexample :
    renamesTo STATE_FILE
      (M1.runMain defaultCfg false false cdState (fun s => (s, 0)) 100).ops = 2 ∧
    ¬ renamesTo STATE_FILE
      (M1.runMain defaultCfg false false cdState (fun s => (s, 0)) 100).ops = 1 ∧
    (M1.runMain defaultCfg false false cdState (fun s => (s, 0)) 100).ops.head? =
      some (.write (STATE_FILE ++ ".tmp") cdState) ∧
    cdState.updatedAt = 0 ∧ (0 : Int) ≠ 100 := by
  refine ⟨by decide, by decide, rfl, rfl, by decide⟩

/-- C8 amended: when the state file exists at the start of the run the only
write is the single end-of-run atomic save, whose document carries
updatedAt equal to the save time; when it is absent, an additional atomic
creation write of the freshly loaded document happens before the scan (so
two writes in total, and the creation write does not stamp updatedAt); the
profile scan itself issues no storage operations, every write is the
temp-write-then-rename pair, and stopping after only the temp write leaves
the state file exactly as before while the full pair installs the whole
document. -/
theorem c8_save_amended (cfg : Cfg) (loaded : M1.State) (scan : M1.State → M1.State × Nat)
    (nowSave : Int) :
    ((M1.runMain cfg false true loaded scan nowSave).ops =
        writeJsonAtomicOps STATE_FILE (M1.savedDoc cfg nowSave (scan loaded).1) ∧
     renamesTo STATE_FILE (M1.runMain cfg false true loaded scan nowSave).ops = 1) ∧
    ((M1.runMain cfg false false loaded scan nowSave).ops =
        writeJsonAtomicOps STATE_FILE loaded ++
          writeJsonAtomicOps STATE_FILE (M1.savedDoc cfg nowSave (scan loaded).1) ∧
     renamesTo STATE_FILE (M1.runMain cfg false false loaded scan nowSave).ops = 2) ∧
    (M1.savedDoc cfg nowSave (scan loaded).1).updatedAt = nowSave ∧
    (∀ (fs : List (String × M1.State)) (doc : M1.State) (k : Nat), k ≤ 1 →
        (applyOps fs ((writeJsonAtomicOps STATE_FILE doc).take k)).lookup STATE_FILE =
          fs.lookup STATE_FILE) ∧
    (∀ (fs : List (String × M1.State)) (doc : M1.State),
        (applyOps fs (writeJsonAtomicOps STATE_FILE doc)).lookup STATE_FILE = some doc) := by
  rcases hsc : scan loaded with ⟨st', notified⟩
  refine ⟨⟨?_, ?_⟩, ⟨?_, ?_⟩, rfl, ?_, ?_⟩
  · simp [M1.runMain, M1.saveStateRun, hsc]
  · simp [M1.runMain, M1.saveStateRun, hsc, renamesTo, writeJsonAtomicOps,
      List.countP_cons, List.countP_nil]
  · simp [M1.runMain, M1.saveStateRun, hsc]
  · simp [M1.runMain, M1.saveStateRun, hsc, renamesTo, writeJsonAtomicOps,
      List.countP_cons, List.countP_nil]
  · exact fun fs doc k hk => atomic_prefix_lookup fs STATE_FILE doc k hk
  · exact fun fs doc => atomic_full_lookup fs STATE_FILE doc

/-- C8 witness: stopping the atomic sequence after only the temp write
leaves the state file unchanged on an empty filesystem. -/
theorem c8_save_amended_witness :
    (1 : Nat) ≤ 1 ∧
    (applyOps ([] : List (String × M1.State))
        ((writeJsonAtomicOps STATE_FILE cdState).take 1)).lookup STATE_FILE =
      ([] : List (String × M1.State)).lookup STATE_FILE :=
  ⟨by decide,
   (c8_save_amended defaultCfg cdState (fun s => (s, 0)) 100).2.2.2.1 [] cdState 1 (by decide)⟩

/-- C9 counterexample: in the variant whose saveState has no try/catch, a
storage error during save propagates to the top-level catch and the process
exit code is 1, not 0. -/
theorem c9_saveerr_counterexample :
    (M1.runMain defaultCfg true true cdState (fun s => (s, 3)) 100).exitCode = 1 ∧
    ¬ (M1.runMain defaultCfg true true cdState (fun s => (s, 3)) 100).exitCode = 0 := by
  exact ⟨rfl, by decide⟩

/-- C9 amended: in the cleanupState variant whose saveState catches, a save
failure leaves the exit code 0, does not change the number of notifications
sent, and issues no storage operation, so the previous state file is
untouched; in the unguarded variant the same failure also leaves the
notifications sent unchanged but makes the process exit with code 1. -/
theorem c9_saveerr_amended (cfg : Cfg) (loadedC : MC.State) (scanC : MC.State → MC.State × Nat)
    (nowClean nowSave : Int) (loaded1 : M1.State) (scan1 : M1.State → M1.State × Nat)
    (fe : Bool) :
    (MC.runMain cfg true loadedC nowClean scanC nowSave).exitCode = 0 ∧
    (MC.runMain cfg true loadedC nowClean scanC nowSave).notified =
      (MC.runMain cfg false loadedC nowClean scanC nowSave).notified ∧
    (MC.runMain cfg true loadedC nowClean scanC nowSave).ops = [] ∧
    (∀ fs : List (String × MC.State),
        applyOps fs (MC.runMain cfg true loadedC nowClean scanC nowSave).ops = fs) ∧
    (M1.runMain cfg true fe loaded1 scan1 nowSave).exitCode = 1 ∧
    (M1.runMain cfg true fe loaded1 scan1 nowSave).notified =
      (M1.runMain cfg false fe loaded1 scan1 nowSave).notified := by
  rcases hscC : scanC (MC.cleanupState cfg nowClean loadedC).1 with ⟨stC, nC⟩
  rcases hsc1 : scan1 loaded1 with ⟨st1, n1⟩
  refine ⟨?_, ?_, ?_, ?_, ?_, ?_⟩ <;>
    simp [MC.runMain, MC.saveStateRun, MC.cleanupState, M1.runMain, M1.saveStateRun,
      hscC, hsc1, applyOps]
